import Mathlib

/-
  Verification development for the goroutine-orchestrator repository.

  The Go sources are shallowly embedded: each Go map is a key-unique
  association list, atomic counters are Int, wait-group counters are Int,
  contexts and cancel closures are modelled by invocation counters / logs,
  and timed waits (`WaitForFunctionWithTimeout`, `wg.Wait` with timeout,
  `select` on a done channel) are modelled by an explicit Boolean oracle
  giving the outcome of the wait.  Metrics calls that carry no control flow
  are modelled as event counters.
-/

namespace Orchestrator

/-- Lookup in an association list, modelling Go `m[k]` (comma-ok form). -/
def mapLookup {α : Type} : List (String × α) → String → Option α
  | [], _ => none
  | p :: rest, k => if p.1 = k then some p.2 else mapLookup rest k

/-- Insertion in an association list, modelling Go `m[k] = v`:
replaces the binding when the key is present, appends otherwise. -/
def mapInsert {α : Type} : List (String × α) → String → α → List (String × α)
  | [], k, v => [(k, v)]
  | p :: rest, k, v => if p.1 = k then (k, v) :: rest else p :: mapInsert rest k v

/-- Deletion from an association list, modelling Go `delete(m, k)`. -/
def mapErase {α : Type} : List (String × α) → String → List (String × α)
  | [], _ => []
  | p :: rest, k => if p.1 = k then mapErase rest k else p :: mapErase rest k

/-! ## Task records and the tracking map (types/builderlocalmanager.go) -/

/-- A task record as seen by the tracking map: stable id, function-group
name, and whether its `Cancel` handle is non-nil
(from `types.Routine` as used in `builderlocalmanager.go`). -/
structure Routine where
  id : String
  functionName : String
  cancelSet : Bool
deriving DecidableEq

/-- The tracking part of `types.LocalManager`: the `Routines` map, the
atomic `routineCount`, and a log of the routine-cancel invocations
performed (each `routine.Cancel()` call appends the routine's id). -/
structure TrackState where
  routines : List (String × Routine)
  routineCount : Int
  cancelLog : List String
deriving DecidableEq

/-- `AddRoutine` (builderlocalmanager.go lines 131-141): inserts the
record under its id and unconditionally increments the atomic counter. -/
def AddRoutine (t : TrackState) (r : Routine) : TrackState :=
  { t with routines := mapInsert t.routines r.id r,
           routineCount := t.routineCount + 1 }

/-- `RemoveRoutine` (builderlocalmanager.go lines 143-164): invokes the
routine's cancel handle when non-nil, then deletes the map entry and
decrements the counter only when the entry exists. -/
def RemoveRoutine (t : TrackState) (r : Routine) : TrackState :=
  let t := if r.cancelSet then { t with cancelLog := t.cancelLog ++ [r.id] } else t
  if (mapLookup t.routines r.id).isSome then
    { t with routines := mapErase t.routines r.id,
             routineCount := t.routineCount - 1 }
  else t

/-- Which lock `GetRoutineCount` acquired, if any. -/
inductive LockKind
  | read
  | write
deriving DecidableEq

/-- `GetRoutineCount` (builderlocalmanager.go lines 230-246): lock-free
atomic read; when the value is negative it takes the READ lock
(`lockLocalReadMutex`), resets the counter to `len(Routines)`, and
returns that length.  The result records the value returned, the
updated state, and the lock acquired (if any). -/
def GetRoutineCount (t : TrackState) : Int × TrackState × Option LockKind :=
  let count := t.routineCount
  if count < 0 then
    ((t.routines.length : Int),
     { t with routineCount := (t.routines.length : Int) },
     some LockKind.read)
  else
    (count, t, none)

/-! ## Spawn options and the terminal cleanup of a spawned goroutine
(manager/local/localmanager.go, `Go` / `spawnGoroutine`) -/

/-- The enumerated option record consumed by `spawnGoroutine`
(fields as used at lines 456-519 of manager/local/localmanager.go). -/
structure GoroutineOptions where
  timeout : Option Nat
  panicRecovery : Bool
  waitGroupName : String

/-- Modelled from the spec: the options constructor `defaultGoroutineOptions`
referenced at line 419 of manager/local/localmanager.go is not under src;
the spec fixes its defaults as `panicRecovery` true, no timeout, no
wait-group name ("panicRecovery: boolean, default true", §4.3). -/
def defaultGoroutineOptions : GoroutineOptions :=
  { timeout := none, panicRecovery := true, waitGroupName := "" }

/-- How the worker function left the goroutine: normal return, returned
error, or panic. -/
inductive ExitKind
  | normal
  | errorReturn
  | panicked
deriving DecidableEq

/-- The state visible to one spawned goroutine's deferred cleanup block:
the tracking map, the captured function-wait-group counter (`wg`, `none`
models a nil pointer), the aggregate wait group (`localManager.Wg`,
`none` models nil), the number of `close(doneChan)` executions, the
number of invocations of the combined `cancel` closure, whether that
closure is non-nil, and the metrics counters the block reports to. -/
structure SpawnWorld where
  track : TrackState
  fnWg : Option Int
  aggWg : Option Int
  doneCloses : Nat
  cancelCalls : Nat
  cancelPresent : Bool
  completionReports : Nat
  panicReports : Nat
deriving DecidableEq

/-- The deferred terminal cleanup block of `spawnGoroutine`
(manager/local/localmanager.go lines 505-544), run when the goroutine
exits by `exit`.  Returns the updated world and whether the panic
propagates past the deferred block (Go: a deferred function body always
runs in full; `recover` is consulted only when `panicRecovery` is set). -/
def goroutineCleanup (opts : GoroutineOptions) (exit : ExitKind) (r : Routine)
    (w : SpawnWorld) : SpawnWorld × Bool :=
  -- if opts.panicRecovery { if r := recover(); r != nil { RecordOperationError(...) } }
  let w := if opts.panicRecovery then
             (if exit = ExitKind.panicked then
                { w with panicReports := w.panicReports + 1 }
              else w)
           else w
  let propagate := !opts.panicRecovery && (exit == ExitKind.panicked)
  -- RecordGoroutineCompletion / RecordGoroutineOperation("complete", ...)
  let w := { w with completionReports := w.completionReports + 1 }
  -- if opts.waitGroupName != "" && wg != nil { wg.Done() }
  let w := if opts.waitGroupName ≠ "" then
             (match w.fnWg with
              | some n => { w with fnWg := some (n - 1) }
              | none => w)
           else w
  -- if localManager.Wg != nil { localManager.Wg.Done() }
  let w := match w.aggWg with
           | some n => { w with aggWg := some (n - 1) }
           | none => w
  -- close(doneChan)
  let w := { w with doneCloses := w.doneCloses + 1 }
  -- if cancel != nil { cancel() }
  let w := if w.cancelPresent then { w with cancelCalls := w.cancelCalls + 1 } else w
  -- localManager.RemoveRoutine(routine, false)
  let w := { w with track := RemoveRoutine w.track r }
  (w, propagate)

/-! ## Manager-level shutdown (manager/local/localmanager.go) -/

/-- Errors surfaced by the shutdown operations. -/
inductive ShutdownErr
  | notFound
  | timeout (name : String)
deriving DecidableEq

/-- The state of one `types.LocalManager` as used by `Shutdown` and
`ShutdownFunction`: the tracking map, the `FunctionWgs` map (name to
wait-group counter), and the manager's own `Cancel` handle modelled by
a presence flag and an invocation counter. -/
structure MgrState where
  track : TrackState
  functionWgs : List (String × Int)
  localCancelPresent : Bool
  localCancelCalls : Nat
deriving DecidableEq

/-- `GetAllGoroutines` (lines 576-590): the values of the routines map. -/
def routineValues (t : TrackState) : List Routine :=
  t.routines.map Prod.snd

/-- The cancel step of the shutdown loops: `cancel := routine.GetCancel();
if cancel != nil { cancel() }`, logged like the cancel inside
`RemoveRoutine`. -/
def cancelRoutine (t : TrackState) (r : Routine) : TrackState :=
  if r.cancelSet then { t with cancelLog := t.cancelLog ++ [r.id] } else t

/-- `RemoveFunctionWg` (builderlocalmanager.go lines 177-185) lifted to
the manager state. -/
def removeFunctionWg (st : MgrState) (functionName : String) : MgrState :=
  { st with functionWgs := mapErase st.functionWgs functionName }

/-- `ShutdownFunction` (manager/local/localmanager.go lines 314-368),
given that the local manager exists.  `completed` is the oracle for
`WaitForFunctionWithTimeout(functionName, timeout)`: whether the
function wait group completed within the timeout. -/
def ShutdownFunctionM (st : MgrState) (functionName : String) (completed : Bool) :
    MgrState × Option ShutdownErr :=
  -- routines, _ := LM.GetAllGoroutines()
  let snapshot := routineValues st.track
  -- cancel every routine whose function name matches, collecting them
  let functionRoutines := snapshot.filter (fun r => r.functionName == functionName)
  let st := { st with track := functionRoutines.foldl cancelRoutine st.track }
  if completed then
    -- success: clean up the wait group, return nil
    (removeFunctionWg st functionName, none)
  else
    -- timeout: forcibly remove the collected routines, clean up the
    -- wait group, and fail with a timeout error carrying the name
    let st := { st with track := functionRoutines.foldl RemoveRoutine st.track }
    (removeFunctionWg st functionName, some (ShutdownErr.timeout functionName))

/-- The distinct function names of a snapshot (`functionNames` map built
at lines 200-203 / 264-267). -/
def functionNamesOf (rs : List Routine) : List String :=
  (rs.map (fun r => r.functionName)).dedup

/-- The deferred cleanup of `Shutdown` (lines 168-174): remove the
function wait group of every collected function name. -/
def deferWgCleanup (st : MgrState) (functionNames : List String) : MgrState :=
  { st with functionWgs := functionNames.foldl mapErase st.functionWgs }

/-- The force-cancel loop of `Shutdown` (lines 239-246 and 270-277):
cancel each routine's context and remove it from the map. -/
def forceRemoveAll (t : TrackState) (rs : List Routine) : TrackState :=
  rs.foldl (fun t r => RemoveRoutine (cancelRoutine t r) r) t

/-- `localManager.Cancel()` guarded by the nil check (lines 250-252,
280-282). -/
def callLocalCancel (st : MgrState) : MgrState :=
  if st.localCancelPresent then { st with localCancelCalls := st.localCancelCalls + 1 } else st

/-- `Shutdown` of the local manager (manager/local/localmanager.go lines
142-286), given that the manager exists.  `fnCompleted name` is the
oracle for the per-function `WaitForFunctionWithTimeout`; `aggDone` is
the oracle for the timed wait on the aggregate wait group (lines
214-232).  The deferred wait-group cleanup runs on every return path. -/
def ShutdownM (st : MgrState) (safe : Bool) (fnCompleted : String → Bool)
    (aggDone : Bool) : MgrState × Option ShutdownErr :=
  if safe then
    let snapshot := routineValues st.track
    let functionNames := functionNamesOf snapshot
    -- Step 2: ShutdownFunction for each function name, errors discarded
    let st := functionNames.foldl
                (fun s fn => (ShutdownFunctionM s fn (fnCompleted fn)).1) st
    -- Step 3: wait on the main wait group with timeout
    if aggDone then
      -- all goroutines completed gracefully; return nil (defer runs)
      (deferWgCleanup st functionNames, none)
    else
      -- Step 4: force cancel any remaining goroutines
      let remaining := routineValues st.track
      let st := { st with track := forceRemoveAll st.track remaining }
      let st := callLocalCancel st
      (deferWgCleanup st functionNames, none)
  else
    let snapshot := routineValues st.track
    let functionNames := functionNamesOf snapshot
    let st := { st with track := forceRemoveAll st.track snapshot }
    let st := callLocalCancel st
    (deferWgCleanup st functionNames, none)

/-! ## App-level shutdown (AppManagerStruct.Shutdown, lines 810-880) -/

/-- An app manager's world: its local managers and its own `Cancel`
handle and wait group, modelled as for `MgrState`. -/
structure AppWorld where
  locals : List MgrState
  appWgPresent : Bool
  appCancelPresent : Bool
  appCancelCalls : Nat

/-- `appManager.Cancel()` guarded by the nil check (lines 874-876). -/
def callAppCancel (w : AppWorld) : AppWorld :=
  if w.appCancelPresent then { w with appCancelCalls := w.appCancelCalls + 1 } else w

/-- `Shutdown` of the app manager (lines 810-880), given that the app
manager exists.  The safe path triggers `Shutdown(true)` on every local
manager and joins them through the app wait group (modelled
sequentially); it is skipped entirely when the wait group is nil.  The
unsafe path runs `Shutdown(false)` on every local manager and then
cancels the app context. -/
def AppShutdownM (w : AppWorld) (safe : Bool) (fnCompleted : String → Bool)
    (aggDone : Bool) : AppWorld × Option ShutdownErr :=
  if safe then
    if w.appWgPresent then
      ({ w with locals := w.locals.map (fun lm => (ShutdownM lm true fnCompleted aggDone).1) },
       none)
    else
      (w, none)
  else
    let w := { w with locals := w.locals.map (fun lm => (ShutdownM lm false fnCompleted aggDone).1) }
    (callAppCancel w, none)

/-! ## App registration (types/SIngleton.go, AppManagerStruct.CreateApp) -/

/-- An app manager instance.  `tag` distinguishes instances so that
"returns the already-registered instance" is expressible. -/
structure AppMgr where
  appName : String
  tag : Nat
deriving DecidableEq

/-- The singleton `types.Global`: `none` models a nil global manager. -/
structure GlobalMgr where
  apps : List (String × AppMgr)
deriving DecidableEq

/-- `IsIntilized().Global()`: whether `types.Global` is non-nil. -/
def IsInitGlobal (g : Option GlobalMgr) : Bool :=
  g.isSome

/-- `IsIntilized().App(appName)`: nil-check on the global, then a map
probe (`Global.AppManagers[appName] != nil`, quoted in the review
document in src). -/
def IsInitApp (g : Option GlobalMgr) (name : String) : Bool :=
  match g with
  | none => false
  | some G => (mapLookup G.apps name).isSome

/-- `SetGlobalManager` (SIngleton.go lines 5-10): a no-op when the
global already exists. -/
def SetGlobalManager (g : Option GlobalMgr) (newG : GlobalMgr) : Option GlobalMgr :=
  if IsInitGlobal g then g else some newG

/-- Modelled from the spec: `GlobalManager.AddAppManager` (types/types.go
is not under src); the spec makes the Root the exclusive owner of the
`apps: AppName → AppManager` map, so registration is a keyed insert. -/
def AddAppManager (G : GlobalMgr) (name : String) (app : AppMgr) : GlobalMgr :=
  { G with apps := mapInsert G.apps name app }

/-- `SetAppManager` (SIngleton.go lines 12-17): returns unchanged when
the app is already registered, otherwise adds it to the global's map. -/
def SetAppManager (g : Option GlobalMgr) (name : String) (app : AppMgr) : Option GlobalMgr :=
  if IsInitApp g name then g
  else
    match g with
    | none => g
    | some G => some (AddAppManager G name app)

/-- `types.GetAppManager` (SIngleton.go lines 38-43) composed with the
spec-modelled map lookup of `GlobalManager.GetAppManager`: `none`
models the NotFound error return. -/
def GetAppManagerG (g : Option GlobalMgr) (name : String) : Option AppMgr :=
  if IsInitApp g name then
    match g with
    | none => none
    | some G => mapLookup G.apps name
  else none

/-- `AppManagerStruct.CreateApp` (manager/local/localmanager.go lines
752-779), given the fresh instance `freshApp` the builder chain would
produce.  Returns the new global state and the result; `some app`
models the `(app, nil)` return, `none` the error return. -/
def CreateApp (g : Option GlobalMgr) (appName : String) (freshApp : AppMgr) :
    Option GlobalMgr × Option AppMgr :=
  -- if !IsIntilized().App { if !IsIntilized().Global { SetGlobalManager(new) } }
  let g := if !IsInitApp g appName then
             (if !IsInitGlobal g then SetGlobalManager g { apps := [] } else g)
           else g
  -- if IsIntilized().App { return GetAppManager(name) }
  if IsInitApp g appName then (g, GetAppManagerG g appName)
  else
    -- app := NewAppManager(name).SetAppContext().SetAppMutex(); SetAppManager(name, app)
    (SetAppManager g appName freshApp, some freshApp)

/-! ## Per-routine query helpers (Manager/Local/LocalManager.go,
lines 140-266 of the earlier-branch local manager) -/

/-- A context value: the helpers fall back to `context.Background()`. -/
inductive CtxVal
  | background
  | derived (id : Nat)
deriving DecidableEq

/-- A routine as the query helpers see it: possibly-nil context handle,
possibly-nil done channel (with its closed state), start timestamp. -/
structure QRoutine where
  ctx : Option CtxVal
  doneClosed : Option Bool
  startedAt : Int
deriving DecidableEq

/-- The earlier-branch local manager: just its routines map. -/
structure QLocalMgr where
  routines : List (String × QRoutine)
deriving DecidableEq

/-- `localManager.GetRoutine(routineID)` (builder lookup; `none` models
the ErrRoutineNotFound return). -/
def getQRoutine (lm : QLocalMgr) (routineID : String) : Option QRoutine :=
  mapLookup lm.routines routineID

/-- `GetRoutineContext` (lines 210-228): `context.Background()` when the
local manager is missing, the routine is not found, or its context is
nil. -/
def GetRoutineContextQ (m : Option QLocalMgr) (routineID : String) : CtxVal :=
  match m with
  | none => CtxVal.background
  | some lm =>
      match getQRoutine lm routineID with
      | none => CtxVal.background
      | some r =>
          match r.ctx with
          | none => CtxVal.background
          | some c => c

/-- `WaitForRoutine` (lines 158-182): false when the manager or routine
is missing or the done channel is nil; otherwise the outcome of the
`select` on done versus timeout, given by the oracle `doneFirst`. -/
def WaitForRoutineQ (m : Option QLocalMgr) (routineID : String) (doneFirst : Bool) : Bool :=
  match m with
  | none => false
  | some lm =>
      match getQRoutine lm routineID with
      | none => false
      | some r =>
          match r.doneClosed with
          | none => false
          | some _ => doneFirst

/-- `IsRoutineDone` (lines 186-208): false when the manager or routine is
missing or the done channel is nil; otherwise whether the channel has
been signalled. -/
def IsRoutineDoneQ (m : Option QLocalMgr) (routineID : String) : Bool :=
  match m with
  | none => false
  | some lm =>
      match getQRoutine lm routineID with
      | none => false
      | some r =>
          match r.doneClosed with
          | none => false
          | some closed => closed

/-- `GetRoutineStartedAt` (lines 232-244): 0 when the manager or routine
is missing. -/
def GetRoutineStartedAtQ (m : Option QLocalMgr) (routineID : String) : Int :=
  match m with
  | none => 0
  | some lm =>
      match getQRoutine lm routineID with
      | none => 0
      | some r => r.startedAt

/-- `GetRoutineUptime` (lines 248-266): 0 when the manager or routine is
missing or the routine never started; otherwise `now - startedAt`. -/
def GetRoutineUptimeQ (m : Option QLocalMgr) (routineID : String) (now : Int) : Int :=
  match m with
  | none => 0
  | some lm =>
      match getQRoutine lm routineID with
      | none => 0
      | some r => if r.startedAt = 0 then 0 else now - r.startedAt

/-! ## The task-ID generator (internal/helper/routine/routinehelper.go) -/

/-- The base64url alphabet used by Go's `base64.RawURLEncoding`. -/
def b64Alphabet : List Char :=
  "ABCDEFGHIJKLMNOPQRSTUVWXYZabcdefghijklmnopqrstuvwxyz0123456789-_".toList

/-- The character for a 6-bit value. -/
def b64Char (n : Nat) : Char :=
  b64Alphabet.getD n 'A'

/-- The 6-bit value of a character (inverse table, for the round trip). -/
def b64Index (c : Char) : Nat :=
  b64Alphabet.indexOf c

/-- Go's base64 encoder on a byte list: 3-byte groups become 4
characters; a 2-byte tail becomes 3 characters and a 1-byte tail 2
characters (RawURLEncoding omits the padding). -/
def encodeGroups : List Nat → List Char
  | a :: b :: c :: rest =>
      b64Char (a / 4) ::
      b64Char (a % 4 * 16 + b / 16) ::
      b64Char (b % 16 * 4 + c / 64) ::
      b64Char (c % 64) ::
      encodeGroups rest
  | [a, b] => [b64Char (a / 4), b64Char (a % 4 * 16 + b / 16), b64Char (b % 16 * 4)]
  | [a] => [b64Char (a / 4), b64Char (a % 4 * 16)]
  | [] => []

/-- Decoder for the encoder above, used to prove IDs distinct. -/
def decodeGroups : List Char → List Nat
  | c0 :: c1 :: c2 :: c3 :: rest =>
      (b64Index c0 * 4 + b64Index c1 / 16) ::
      (b64Index c1 % 16 * 16 + b64Index c2 / 4) ::
      (b64Index c2 % 4 * 64 + b64Index c3) ::
      decodeGroups rest
  | [c0, c1, c2] =>
      [b64Index c0 * 4 + b64Index c1 / 16, b64Index c1 % 16 * 16 + b64Index c2 / 4]
  | [c0, c1] => [b64Index c0 * 4 + b64Index c1 / 16]
  | _ => []

/-- `binary.LittleEndian.PutUint64`: the 8 little-endian bytes of `n`. -/
def leBytes8 (n : Nat) : List Nat :=
  [n % 256, n / 256 % 256, n / 65536 % 256, n / 16777216 % 256,
   n / 4294967296 % 256, n / 1099511627776 % 256,
   n / 281474976710656 % 256, n / 72057594037927936 % 256]

/-- Recombine little-endian bytes, used to prove `leBytes8` injective. -/
def fromLeBytes : List Nat → Nat
  | [] => 0
  | b :: rest => b + 256 * fromLeBytes rest

/-- `NewUUID` (routinehelper.go lines 20-38) as a function of the
sampled nanosecond timestamp and the post-increment atomic counter:
8 little-endian timestamp bytes, then 8 little-endian counter bytes,
base64url-encoded without padding. -/
def NewUUID (timestamp counter : Nat) : List Char :=
  encodeGroups (leBytes8 timestamp ++ leBytes8 counter)

/-- Strict lexicographic order on ASCII character lists (the order the
claim's "lexicographically sortable" refers to). -/
def lexLtChars : List Char → List Char → Bool
  | [], [] => false
  | [], _ :: _ => true
  | _ :: _, [] => false
  | a :: as, b :: bs =>
      if a.toNat < b.toNat then true
      else if a.toNat = b.toNat then lexLtChars as bs
      else false

/-! ## Concrete states used by witnesses and counterexamples -/

/-- A routine with a duplicate-insert scenario for the tracking map. -/
def rDup : Routine :=
  { id := "a", functionName := "f", cancelSet := false }

/-- A tracking state already holding `rDup`. -/
def tDup : TrackState :=
  { routines := [("a", rDup)], routineCount := 1, cancelLog := [] }

/-- A tracking state with a corrupted (negative) atomic counter. -/
def tNeg : TrackState :=
  { routines := [], routineCount := -1, cancelLog := [] }

/-- A tracking state with a healthy counter. -/
def tPos : TrackState :=
  { routines := [("a", rDup)], routineCount := 1, cancelLog := [] }

/-- A routine for the spawn-cleanup witnesses. -/
def rSpawn : Routine :=
  { id := "r1", functionName := "worker", cancelSet := true }

/-- Options with a wait-group name, for the spawn-cleanup witness. -/
def optsSpawn : GoroutineOptions :=
  { timeout := none, panicRecovery := true, waitGroupName := "grp" }

/-- A spawn world holding `rSpawn`, with both wait groups at 1. -/
def wSpawn : SpawnWorld :=
  { track := { routines := [("r1", rSpawn)], routineCount := 1, cancelLog := [] },
    fnWg := some 1, aggWg := some 1, doneCloses := 0, cancelCalls := 0,
    cancelPresent := true, completionReports := 0, panicReports := 0 }

/-- A manager state for the ShutdownFunction witness: one matching task. -/
def stFn : MgrState :=
  { track := { routines := [("r1", rSpawn)], routineCount := 1, cancelLog := [] },
    functionWgs := [("worker", 1)], localCancelPresent := true, localCancelCalls := 0 }

/-- A manager whose only function-wait-group entry is keyed by a
`waitGroupName` ("B") that differs from the tracked task's function
name ("A") — the state `Go(functionName := "A", AddToWaitGroup("B"))`
leaves behind. -/
def stWgMismatch : MgrState :=
  { track := { routines := [("id1", { id := "id1", functionName := "A", cancelSet := true })],
               routineCount := 1, cancelLog := [] },
    functionWgs := [("B", 0)], localCancelPresent := true, localCancelCalls := 0 }

/-- A quiescent local manager (zero tasks) with a non-nil cancel. -/
def stQuiet : MgrState :=
  { track := { routines := [], routineCount := 0, cancelLog := [] },
    functionWgs := [], localCancelPresent := true, localCancelCalls := 0 }

/-- An app world over `stQuiet` with a non-nil cancel and wait group. -/
def awQuiet : AppWorld :=
  { locals := [stQuiet], appWgPresent := true, appCancelPresent := true, appCancelCalls := 0 }

/-- A fresh app-manager instance for the registration witness. -/
def appA : AppMgr :=
  { appName := "api", tag := 1 }

/-- A second fresh instance for the duplicate registration. -/
def appB : AppMgr :=
  { appName := "api", tag := 2 }

/-! # Theorems -/

/-! ### Association-list lemmas -/

theorem mapLookup_mapErase_self {α : Type} (m : List (String × α)) (k : String) :
    mapLookup (mapErase m k) k = none := by
  induction m with
  | nil => rfl
  | cons p rest ih =>
      by_cases h : p.1 = k <;> simp [mapErase, mapLookup, h, ih]

theorem mapLookup_mapErase_none {α : Type} (m : List (String × α)) (k k' : String)
    (h : mapLookup m k = none) : mapLookup (mapErase m k') k = none := by
  induction m with
  | nil => rfl
  | cons p rest ih =>
      simp only [mapLookup] at h
      by_cases hk : p.1 = k
      · simp [hk] at h
      · rw [if_neg hk] at h
        by_cases hp : p.1 = k'
        · simp [mapErase, hp, ih h]
        · simp [mapErase, hp, mapLookup, hk, ih h]

theorem mapLookup_mapInsert_self {α : Type} (m : List (String × α)) (k : String) (v : α) :
    mapLookup (mapInsert m k v) k = some v := by
  induction m with
  | nil => simp [mapInsert, mapLookup]
  | cons p rest ih =>
      by_cases h : p.1 = k <;> simp [mapInsert, mapLookup, h, ih]

theorem mapErase_eq_filter {α : Type} (m : List (String × α)) (k : String) :
    mapErase m k = m.filter (fun p => p.1 ≠ k) := by
  induction m with
  | nil => rfl
  | cons p rest ih =>
      by_cases h : p.1 = k <;> simp [mapErase, List.filter, h, ih]

theorem mapLookup_eq_none_of_not_mem {α : Type} (m : List (String × α)) (k : String)
    (h : k ∉ m.map Prod.fst) : mapLookup m k = none := by
  induction m with
  | nil => rfl
  | cons p rest ih =>
      simp only [List.map, List.mem_cons] at h
      push_neg at h
      have hne : ¬ p.1 = k := fun he => h.1 he.symm
      simp [mapLookup, hne, ih h.2]

theorem mapErase_of_lookup_none {α : Type} (m : List (String × α)) (k : String)
    (h : mapLookup m k = none) : mapErase m k = m := by
  induction m with
  | nil => rfl
  | cons p rest ih =>
      simp only [mapLookup] at h
      by_cases hk : p.1 = k
      · simp [hk] at h
      · rw [if_neg hk] at h
        simp [mapErase, hk, ih h]

theorem mapErase_length {α : Type} (m : List (String × α)) (k : String)
    (hnodup : (m.map Prod.fst).Nodup) (h : (mapLookup m k).isSome) :
    (mapErase m k).length + 1 = m.length := by
  induction m with
  | nil => simp [mapLookup] at h
  | cons p rest ih =>
      simp only [List.map, List.nodup_cons] at hnodup
      by_cases hk : p.1 = k
      · have hnone : mapLookup rest k = none :=
          mapLookup_eq_none_of_not_mem rest k (hk ▸ hnodup.1)
        simp [mapErase, hk, mapErase_of_lookup_none rest k hnone]
      · simp only [mapLookup, if_neg hk] at h
        simp [mapErase, hk, ih hnodup.2 h]

theorem mapInsert_length_of_none {α : Type} (m : List (String × α)) (k : String) (v : α)
    (h : mapLookup m k = none) : (mapInsert m k v).length = m.length + 1 := by
  induction m with
  | nil => rfl
  | cons p rest ih =>
      simp only [mapLookup] at h
      by_cases hk : p.1 = k
      · simp [hk] at h
      · rw [if_neg hk] at h
        simp [mapInsert, hk, ih h]

/-! ### Tracking-map operation lemmas -/

theorem RemoveRoutine_routines (t : TrackState) (r : Routine) :
    (RemoveRoutine t r).routines =
      if (mapLookup t.routines r.id).isSome then mapErase t.routines r.id
      else t.routines := by
  unfold RemoveRoutine
  by_cases hc : r.cancelSet <;> by_cases hs : (mapLookup t.routines r.id).isSome <;>
    simp [hc, hs]

theorem RemoveRoutine_count (t : TrackState) (r : Routine) :
    (RemoveRoutine t r).routineCount =
      if (mapLookup t.routines r.id).isSome then t.routineCount - 1
      else t.routineCount := by
  unfold RemoveRoutine
  by_cases hc : r.cancelSet <;> by_cases hs : (mapLookup t.routines r.id).isSome <;>
    simp [hc, hs]

theorem RemoveRoutine_lookup_self (t : TrackState) (r : Routine) :
    mapLookup (RemoveRoutine t r).routines r.id = none := by
  rw [RemoveRoutine_routines]
  by_cases h : (mapLookup t.routines r.id).isSome
  · simp [h, mapLookup_mapErase_self]
  · simp only [h, if_false]
    exact Option.not_isSome_iff_eq_none.mp h

theorem RemoveRoutine_lookup_none (t : TrackState) (r : Routine) (k : String)
    (h : mapLookup t.routines k = none) :
    mapLookup (RemoveRoutine t r).routines k = none := by
  rw [RemoveRoutine_routines]
  by_cases hs : (mapLookup t.routines r.id).isSome
  · simp [hs, mapLookup_mapErase_none _ _ _ h]
  · simpa [hs] using h

theorem cancelRoutine_routines (t : TrackState) (r : Routine) :
    (cancelRoutine t r).routines = t.routines := by
  unfold cancelRoutine
  by_cases hc : r.cancelSet <;> simp [hc]

theorem cancelRoutine_count (t : TrackState) (r : Routine) :
    (cancelRoutine t r).routineCount = t.routineCount := by
  unfold cancelRoutine
  by_cases hc : r.cancelSet <;> simp [hc]

theorem foldl_cancelRoutine_routines (rs : List Routine) (t : TrackState) :
    (rs.foldl cancelRoutine t).routines = t.routines := by
  induction rs generalizing t with
  | nil => rfl
  | cons a as ih => simp [List.foldl, ih, cancelRoutine_routines]

theorem foldl_RemoveRoutine_lookup_none (rs : List Routine) (t : TrackState) (k : String)
    (h : mapLookup t.routines k = none) :
    mapLookup (rs.foldl RemoveRoutine t).routines k = none := by
  induction rs generalizing t with
  | nil => exact h
  | cons a as ih => exact ih _ (RemoveRoutine_lookup_none t a k h)

theorem foldl_RemoveRoutine_lookup_mem (rs : List Routine) (t : TrackState) (r : Routine)
    (h : r ∈ rs) :
    mapLookup (rs.foldl RemoveRoutine t).routines r.id = none := by
  induction rs generalizing t with
  | nil => cases h
  | cons a as ih =>
      rcases List.mem_cons.mp h with he | hm
      · subst he
        exact foldl_RemoveRoutine_lookup_none as _ r.id (RemoveRoutine_lookup_self t r)
      · exact ih _ hm

/-! ### Claim C5 — the `routineCount == len(routines)` invariant -/

/-- Claim C5 counterexample: `AddRoutine` of a routine whose id is
already tracked increments the atomic counter without growing the map,
so the counter does not change "exactly when the map grows by one":
starting from a consistent state (count 1, one entry), a duplicate add
leaves the map at one entry but pushes the counter to 2. -/
theorem addRoutine_increments_without_growth :
    tDup.routineCount = 1 ∧ tDup.routines.length = 1 ∧
    (AddRoutine tDup rDup).routines.length = 1 ∧
    (AddRoutine tDup rDup).routineCount = 2 := by
  decide

/-- Claim C5 (amended): `AddRoutine` unconditionally increments the
counter while inserting, so the invariant `routineCount = len(routines)`
is preserved exactly when the inserted id is not already tracked (which
the process-unique id generator guarantees); `RemoveRoutine` decrements
the counter exactly when it deletes an existing entry, and a second
`RemoveRoutine` of the same routine changes neither the map nor the
counter. -/
theorem tracking_count_invariant (t : TrackState) (r : Routine)
    (hnodup : (t.routines.map Prod.fst).Nodup)
    (hinv : t.routineCount = (t.routines.length : Int)) :
    (mapLookup t.routines r.id = none →
      (AddRoutine t r).routineCount = ((AddRoutine t r).routines.length : Int))
    ∧ (RemoveRoutine t r).routineCount = ((RemoveRoutine t r).routines.length : Int)
    ∧ (RemoveRoutine (RemoveRoutine t r) r).routines = (RemoveRoutine t r).routines
    ∧ (RemoveRoutine (RemoveRoutine t r) r).routineCount = (RemoveRoutine t r).routineCount := by
  refine ⟨?_, ?_, ?_, ?_⟩
  · intro hnone
    simp [AddRoutine, mapInsert_length_of_none t.routines r.id r hnone, hinv]
  · rw [RemoveRoutine_count, RemoveRoutine_routines]
    by_cases hs : (mapLookup t.routines r.id).isSome
    · have hlen := mapErase_length t.routines r.id hnodup hs
      simp only [hs, if_true]
      omega
    · simp [hs, hinv]
  · rw [RemoveRoutine_routines (RemoveRoutine t r) r,
        RemoveRoutine_lookup_self t r]
    simp
  · rw [RemoveRoutine_count (RemoveRoutine t r) r,
        RemoveRoutine_lookup_self t r]
    simp

/-- Witness for `tracking_count_invariant` at a concrete consistent
state. -/
theorem tracking_count_invariant_witness :
    ((tPos.routines.map Prod.fst).Nodup ∧ tPos.routineCount = (tPos.routines.length : Int))
    ∧ (RemoveRoutine tPos rDup).routineCount = ((RemoveRoutine tPos rDup).routines.length : Int) := by
  have h := tracking_count_invariant tPos rDup (by decide) (by decide)
  exact ⟨⟨by decide, by decide⟩, h.2.1⟩

/-! ### Claim C6 — `GetRoutineCount` reconciliation -/

/-- Claim C6 counterexample: on a negative counter the reconciliation
path acquires the READ lock (`lockLocalReadMutex`), not the write lock
the claim states. -/
theorem negative_count_takes_read_lock :
    tNeg.routineCount < 0 ∧
    (GetRoutineCount tNeg).2.2 = some LockKind.read ∧
    (GetRoutineCount tNeg).2.2 ≠ some LockKind.write := by
  decide

/-- Claim C6 (amended): `GetRoutineCount` returns an atomic read of
`routineCount`; whenever that read is negative it takes the READ lock,
resets the counter to `len(routines)`, and returns that reconciled
length instead of the negative value. -/
theorem getRoutineCount_reconcile (t : TrackState) :
    (t.routineCount < 0 →
      GetRoutineCount t =
        ((t.routines.length : Int),
         { t with routineCount := (t.routines.length : Int) },
         some LockKind.read))
    ∧ (0 ≤ t.routineCount → GetRoutineCount t = (t.routineCount, t, none)) := by
  constructor
  · intro h
    simp [GetRoutineCount, h]
  · intro h
    simp [GetRoutineCount, not_lt.mpr h]

/-- Witness for `getRoutineCount_reconcile` on a corrupted and on a
healthy state. -/
theorem getRoutineCount_reconcile_witness :
    (tNeg.routineCount < 0 ∧
      GetRoutineCount tNeg = ((0 : Int), { tNeg with routineCount := 0 }, some LockKind.read))
    ∧ (0 ≤ tPos.routineCount ∧ GetRoutineCount tPos = (tPos.routineCount, tPos, none)) := by
  refine ⟨⟨by decide, ?_⟩, ⟨by decide, ?_⟩⟩
  · have h := (getRoutineCount_reconcile tNeg).1 (by decide)
    simpa using h
  · exact (getRoutineCount_reconcile tPos).2 (by decide)

/-! ### Claims C1 and C7 — the spawn cleanup contract -/

/-- Claim C1: for every spawned task, whatever the exit path (normal
return, returned error, or panic) and whatever the `panicRecovery`
option, the deferred terminal cleanup reports completion to metrics,
decrements the function wait group when a `waitGroupName` was given,
decrements the aggregate wait group, closes the done channel exactly
once, invokes the combined cancel closure, and removes the task's
record from the routines map, decrementing `routineCount`. -/
theorem spawn_cleanup_terminal (opts : GoroutineOptions) (exit : ExitKind)
    (r : Routine) (w : SpawnWorld) :
    (goroutineCleanup opts exit r w).1.completionReports = w.completionReports + 1
    ∧ (opts.waitGroupName ≠ "" → ∀ n, w.fnWg = some n →
        (goroutineCleanup opts exit r w).1.fnWg = some (n - 1))
    ∧ (∀ n, w.aggWg = some n → (goroutineCleanup opts exit r w).1.aggWg = some (n - 1))
    ∧ (goroutineCleanup opts exit r w).1.doneCloses = w.doneCloses + 1
    ∧ (w.cancelPresent = true →
        (goroutineCleanup opts exit r w).1.cancelCalls = w.cancelCalls + 1)
    ∧ (mapLookup w.track.routines r.id = some r →
        mapLookup (goroutineCleanup opts exit r w).1.track.routines r.id = none
        ∧ (goroutineCleanup opts exit r w).1.track.routineCount = w.track.routineCount - 1) := by
  unfold goroutineCleanup
  by_cases hP : opts.panicRecovery <;>
    by_cases hE : exit = ExitKind.panicked <;>
      by_cases hW : opts.waitGroupName = "" <;>
        by_cases hC : w.cancelPresent <;>
          rcases hF : w.fnWg with _ | n1 <;>
            rcases hA : w.aggWg with _ | n2 <;>
              refine ⟨?_, ?_, ?_, ?_, ?_, ?_⟩ <;>
                simp [hP, hE, hW, hC, hF, hA, RemoveRoutine_lookup_self,
                      RemoveRoutine_count, RemoveRoutine_routines,
                      mapLookup_mapErase_self, Option.isSome] <;>
                  (try intro hL) <;>
                    simp_all [RemoveRoutine_count, mapLookup_mapErase_self]

/-- Witness for `spawn_cleanup_terminal`: a panicking exit with
`panicRecovery` disabled still runs the whole cleanup. -/
theorem spawn_cleanup_terminal_witness :
    (optsSpawn.waitGroupName ≠ "" ∧ wSpawn.fnWg = some 1 ∧ wSpawn.aggWg = some 1
      ∧ wSpawn.cancelPresent = true ∧ mapLookup wSpawn.track.routines rSpawn.id = some rSpawn)
    ∧ ((goroutineCleanup { optsSpawn with panicRecovery := false } ExitKind.panicked rSpawn wSpawn).1.fnWg = some 0
       ∧ (goroutineCleanup { optsSpawn with panicRecovery := false } ExitKind.panicked rSpawn wSpawn).1.aggWg = some 0
       ∧ (goroutineCleanup { optsSpawn with panicRecovery := false } ExitKind.panicked rSpawn wSpawn).1.cancelCalls = wSpawn.cancelCalls + 1
       ∧ mapLookup (goroutineCleanup { optsSpawn with panicRecovery := false } ExitKind.panicked rSpawn wSpawn).1.track.routines rSpawn.id = none) := by
  have h := spawn_cleanup_terminal { optsSpawn with panicRecovery := false }
              ExitKind.panicked rSpawn wSpawn
  refine ⟨⟨by decide, by decide, by decide, by decide, by decide⟩, ?_, ?_, ?_, ?_⟩
  · simpa using h.2.1 (by decide) 1 (by decide)
  · simpa using h.2.2.1 1 (by decide)
  · exact h.2.2.2.2.1 (by decide)
  · exact (h.2.2.2.2.2 (by decide)).1

/-- Claim C7: with `panicRecovery` true (the default), a panic raised by
the worker function is caught by the deferred block, reported to the
metrics sink as exactly one panic event, and swallowed (it does not
propagate out of the goroutine), and the normal cleanup still runs. -/
theorem panic_recovery_swallows_and_cleans :
    defaultGoroutineOptions.panicRecovery = true
    ∧ ∀ (opts : GoroutineOptions) (r : Routine) (w : SpawnWorld),
        opts.panicRecovery = true →
        (goroutineCleanup opts ExitKind.panicked r w).1.panicReports = w.panicReports + 1
        ∧ (goroutineCleanup opts ExitKind.panicked r w).2 = false
        ∧ (goroutineCleanup opts ExitKind.panicked r w).1.completionReports = w.completionReports + 1
        ∧ (goroutineCleanup opts ExitKind.panicked r w).1.doneCloses = w.doneCloses + 1
        ∧ (mapLookup w.track.routines r.id = some r →
            mapLookup (goroutineCleanup opts ExitKind.panicked r w).1.track.routines r.id = none) := by
  refine ⟨rfl, ?_⟩
  intro opts r w hP
  unfold goroutineCleanup
  by_cases hW : opts.waitGroupName = "" <;>
    by_cases hC : w.cancelPresent <;>
      rcases hF : w.fnWg with _ | n1 <;>
        rcases hA : w.aggWg with _ | n2 <;>
          refine ⟨?_, ?_, ?_, ?_, ?_⟩ <;>
            simp [hP, hW, hC, hF, hA, RemoveRoutine_routines] <;>
              (try intro hL) <;>
                simp_all [mapLookup_mapErase_self]

/-- Witness for `panic_recovery_swallows_and_cleans` at the default
options. -/
theorem panic_recovery_swallows_and_cleans_witness :
    defaultGoroutineOptions.panicRecovery = true
    ∧ (goroutineCleanup defaultGoroutineOptions ExitKind.panicked rSpawn wSpawn).1.panicReports = 1
    ∧ (goroutineCleanup defaultGoroutineOptions ExitKind.panicked rSpawn wSpawn).2 = false := by
  have h := panic_recovery_swallows_and_cleans
  have h2 := h.2 defaultGoroutineOptions rSpawn wSpawn (by decide)
  exact ⟨h.1, by simpa using h2.1, h2.2.1⟩

/-! ### Claim C3 — `ShutdownFunction` -/

/-- Claim C3: `ShutdownFunction(name, timeout)` (on an existing local
manager) returns a timeout error carrying `name` exactly when the
function wait group does not complete within the timeout; on timeout
every collected task with that function name is forcibly removed from
the routines map and the wait-group entry is removed; on success the
wait-group entry is removed and nil is returned. -/
theorem shutdownFunction_contract (st : MgrState) (name : String) (completed : Bool) :
    ((ShutdownFunctionM st name completed).2 = some (ShutdownErr.timeout name)
      ↔ completed = false)
    ∧ mapLookup (ShutdownFunctionM st name completed).1.functionWgs name = none
    ∧ (completed = true → (ShutdownFunctionM st name completed).2 = none)
    ∧ (completed = false → ∀ r ∈ routineValues st.track, r.functionName = name →
        mapLookup (ShutdownFunctionM st name completed).1.track.routines r.id = none) := by
  cases completed
  · refine ⟨by simp [ShutdownFunctionM, removeFunctionWg], ?_, by simp, ?_⟩
    · simp [ShutdownFunctionM, removeFunctionWg, mapLookup_mapErase_self]
    · intro _ r hmem hname
      simp only [ShutdownFunctionM, removeFunctionWg, Bool.false_eq_true, if_false]
      have hr : r ∈ (routineValues st.track).filter (fun r => r.functionName == name) :=
        List.mem_filter.mpr ⟨hmem, by simp [hname]⟩
      exact foldl_RemoveRoutine_lookup_mem _ _ r hr
  · refine ⟨by simp [ShutdownFunctionM, removeFunctionWg], ?_, by simp [ShutdownFunctionM, removeFunctionWg], by simp⟩
    simp [ShutdownFunctionM, removeFunctionWg, mapLookup_mapErase_self]

/-- Witness for `shutdownFunction_contract`: timeout on a state with one
matching task. -/
theorem shutdownFunction_contract_witness :
    (ShutdownFunctionM stFn "worker" false).2 = some (ShutdownErr.timeout "worker")
    ∧ mapLookup (ShutdownFunctionM stFn "worker" false).1.functionWgs "worker" = none
    ∧ mapLookup (ShutdownFunctionM stFn "worker" false).1.track.routines "r1" = none := by
  have h := shutdownFunction_contract stFn "worker" false
  refine ⟨h.1.mpr rfl, h.2.1, ?_⟩
  have hr := h.2.2.2 rfl rSpawn (by decide) (by decide)
  simpa using hr

/-! ### Claim C4 — emptying of the function-wait-group map -/

theorem ShutdownFunctionM_wgs (s : MgrState) (fn : String) (b : Bool) :
    (ShutdownFunctionM s fn b).1.functionWgs = mapErase s.functionWgs fn := by
  cases b <;> simp [ShutdownFunctionM, removeFunctionWg]

theorem foldl_ShutdownFunctionM_wgs (fns : List String) (st : MgrState) (f : String → Bool) :
    (fns.foldl (fun s fn => (ShutdownFunctionM s fn (f fn)).1) st).functionWgs
      = fns.foldl mapErase st.functionWgs := by
  induction fns generalizing st with
  | nil => rfl
  | cons k ks ih =>
      simp only [List.foldl]
      rw [ih, ShutdownFunctionM_wgs]

theorem foldl_mapErase_eq_filter {α : Type} (ks : List String) (m : List (String × α)) :
    ks.foldl mapErase m = m.filter (fun p => decide (p.1 ∉ ks)) := by
  induction ks generalizing m with
  | nil => simp
  | cons k ks ih =>
      simp only [List.foldl]
      rw [ih, mapErase_eq_filter, List.filter_filter]
      apply List.filter_congr
      intro p _
      by_cases h1 : p.1 = k <;> by_cases h2 : p.1 ∈ ks <;> simp [h1, h2]

theorem foldl_mapErase_twice {α : Type} (ks : List String) (m : List (String × α)) :
    ks.foldl mapErase (ks.foldl mapErase m) = ks.foldl mapErase m := by
  rw [foldl_mapErase_eq_filter, foldl_mapErase_eq_filter, List.filter_filter]
  apply List.filter_congr
  intro p _
  by_cases h : p.1 ∈ ks <;> simp [h]

theorem filter_notMem_dedup {α : Type} (ks : List String) (m : List (String × α)) :
    m.filter (fun p => decide (p.1 ∉ ks.dedup)) = m.filter (fun p => decide (p.1 ∉ ks)) := by
  apply List.filter_congr
  intro p _
  by_cases h : p.1 ∈ ks <;> simp [h, List.mem_dedup]

theorem callLocalCancel_wgs (x : MgrState) :
    (callLocalCancel x).functionWgs = x.functionWgs := by
  unfold callLocalCancel
  by_cases h : x.localCancelPresent <;> simp [h]

/-- Claim C4 counterexample: a local manager tracking one task with
`functionName = "A"` whose function-wait-group map holds the entry
created under `waitGroupName = "B"`.  Neither the safe nor the unsafe
shutdown path empties the map: the entry keyed "B" survives both. -/
theorem shutdown_leaves_unmatched_wg :
    stWgMismatch.track.routines ≠ []
    ∧ stWgMismatch.functionWgs = [("B", 0)]
    ∧ (ShutdownM stWgMismatch true (fun _ => true) true).1.functionWgs = [("B", 0)]
    ∧ (ShutdownM stWgMismatch false (fun _ => true) true).1.functionWgs = [("B", 0)] := by
  decide

/-- Claim C4 (amended): both shutdown paths remove from the
function-wait-group map exactly those entries whose key is the
`functionName` of some task tracked at the snapshot (via the deferred
cleanup block); entries under any other key — such as a `waitGroupName`
differing from every tracked task's function name — survive, so the map
is fully emptied only when every key is a tracked function name. -/
theorem shutdown_erases_tracked_function_wgs (st : MgrState) (safe : Bool)
    (f : String → Bool) (g : Bool) :
    (ShutdownM st safe f g).1.functionWgs
      = st.functionWgs.filter
          (fun p => decide (p.1 ∉ (routineValues st.track).map (fun r => r.functionName))) := by
  have hbr := filter_notMem_dedup
    ((routineValues st.track).map (fun r => r.functionName)) st.functionWgs
  cases safe
  · simp only [ShutdownM, Bool.false_eq_true, if_false, deferWgCleanup]
    rw [callLocalCancel_wgs]
    show ((routineValues st.track).map (fun r => r.functionName)).dedup.foldl
          mapErase st.functionWgs = _
    rw [foldl_mapErase_eq_filter]
    exact hbr
  · simp only [ShutdownM, if_true]
    by_cases hg : g
    · simp only [hg, if_true, deferWgCleanup]
      rw [foldl_ShutdownFunctionM_wgs, foldl_mapErase_twice, foldl_mapErase_eq_filter]
      exact hbr
    · simp only [hg, Bool.false_eq_true, if_false, deferWgCleanup]
      rw [callLocalCancel_wgs]
      show ((routineValues st.track).map (fun r => r.functionName)).dedup.foldl
            mapErase
            (((routineValues st.track).map (fun r => r.functionName)).dedup.foldl
              (fun s fn => (ShutdownFunctionM s fn (f fn)).1) st).functionWgs = _
      rw [foldl_ShutdownFunctionM_wgs, foldl_mapErase_twice, foldl_mapErase_eq_filter]
      exact hbr

/-! ### Claim C2 — context cancellation on safe shutdown -/

/-- Claim C2 (code evaluated at the failing input): on the safe success
path — a quiescent local manager whose aggregate wait group completes
within the timeout — `Shutdown(true)` returns nil WITHOUT invoking the
Local's cancel, and the App manager's safe `Shutdown(true)` likewise
returns without invoking the App's cancel, although both cancel handles
are non-nil.  (Only the timeout path and the unsafe path cancel.) -/
theorem safe_shutdown_skips_context_cancel :
    stQuiet.localCancelPresent = true
    ∧ (ShutdownM stQuiet true (fun _ => true) true).2 = none
    ∧ (ShutdownM stQuiet true (fun _ => true) true).1.localCancelCalls = 0
    ∧ awQuiet.appCancelPresent = true
    ∧ (AppShutdownM awQuiet true (fun _ => true) true).2 = none
    ∧ (AppShutdownM awQuiet true (fun _ => true) true).1.appCancelCalls = 0
    ∧ (ShutdownM stQuiet true (fun _ => true) false).1.localCancelCalls = 1
    ∧ (AppShutdownM awQuiet false (fun _ => true) true).1.appCancelCalls = 1 := by
  decide

/-! ### Claim C8 — idempotent app registration -/

theorem CreateApp_of_init (g : Option GlobalMgr) (name : String) (a : AppMgr)
    (h : IsInitApp g name = true) :
    CreateApp g name a = (g, GetAppManagerG g name) := by
  simp [CreateApp, h]

theorem GetAppManagerG_isSome (g : Option GlobalMgr) (name : String)
    (h : IsInitApp g name = true) : (GetAppManagerG g name).isSome = true := by
  rcases g with _ | G
  · simp [IsInitApp] at h
  · simp only [IsInitApp] at h
    simp [GetAppManagerG, IsInitApp, h]

theorem CreateApp_registers (g : Option GlobalMgr) (name : String) (a : AppMgr) :
    IsInitApp (CreateApp g name a).1 name = true
    ∧ (CreateApp g name a).2 = GetAppManagerG (CreateApp g name a).1 name := by
  by_cases h : IsInitApp g name = true
  · rw [CreateApp_of_init g name a h]
    exact ⟨h, rfl⟩
  · have hB : IsInitApp g name = false := by
      simp at h
      exact h
    rcases g with _ | G
    · constructor
      · simp [CreateApp, IsInitApp, IsInitGlobal, SetGlobalManager, SetAppManager,
              AddAppManager, mapLookup, mapLookup_mapInsert_self]
      · simp [CreateApp, IsInitApp, IsInitGlobal, SetGlobalManager, SetAppManager,
              AddAppManager, GetAppManagerG, mapLookup, mapLookup_mapInsert_self]
    · have hl : (mapLookup G.apps name).isSome = false := by
        simpa [IsInitApp] using hB
      constructor
      · simp [CreateApp, IsInitApp, IsInitGlobal, SetAppManager, AddAppManager,
              hl, mapLookup_mapInsert_self]
      · simp [CreateApp, IsInitApp, IsInitGlobal, SetAppManager, AddAppManager,
              GetAppManagerG, hl, mapLookup_mapInsert_self]

/-- Claim C8: registering an app name twice returns the instance
registered by the first call with a nil error, the registry is unchanged
by the second call, and `SetAppManager` never overwrites an existing
entry. -/
theorem createApp_idempotent (g : Option GlobalMgr) (name : String) (a1 a2 : AppMgr) :
    ((CreateApp (CreateApp g name a1).1 name a2).2 = (CreateApp g name a1).2
      ∧ (CreateApp (CreateApp g name a1).1 name a2).1 = (CreateApp g name a1).1
      ∧ ((CreateApp (CreateApp g name a1).1 name a2).2).isSome = true)
    ∧ (∀ (g0 : Option GlobalMgr) (app : AppMgr),
        IsInitApp g0 name = true → SetAppManager g0 name app = g0) := by
  constructor
  · have h1 := (CreateApp_registers g name a1).1
    have h2 := (CreateApp_registers g name a1).2
    rw [CreateApp_of_init (CreateApp g name a1).1 name a2 h1]
    exact ⟨h2.symm, rfl, GetAppManagerG_isSome _ name h1⟩
  · intro g0 app h
    simp [SetAppManager, h]

/-- Witness for `createApp_idempotent`: two registrations of "api" from
the empty (nil) global state. -/
theorem createApp_idempotent_witness :
    (CreateApp (CreateApp none "api" appA).1 "api" appB).2 = some appA
    ∧ (CreateApp none "api" appA).2 = some appA
    ∧ IsInitApp none "api" = false := by
  have h := createApp_idempotent none "api" appA appB
  refine ⟨?_, by decide, by decide⟩
  rw [h.1.1]
  decide

/-! ### Claim C10 — soft failure of the per-routine query helpers -/

/-- Claim C10: whenever the local manager is missing or the routine id
is not tracked, the query helpers never fail hard: `GetRoutineContext`
returns `context.Background()` (its return type has no nil),
`WaitForRoutine` and `IsRoutineDone` return false, and
`GetRoutineStartedAt` and `GetRoutineUptime` return 0. -/
theorem query_helpers_soft_fail (m : Option QLocalMgr) (routineID : String)
    (doneFirst : Bool) (now : Int)
    (h : ∀ lm, m = some lm → mapLookup lm.routines routineID = none) :
    GetRoutineContextQ m routineID = CtxVal.background
    ∧ WaitForRoutineQ m routineID doneFirst = false
    ∧ IsRoutineDoneQ m routineID = false
    ∧ GetRoutineStartedAtQ m routineID = 0
    ∧ GetRoutineUptimeQ m routineID now = 0 := by
  rcases m with _ | lm
  · exact ⟨rfl, rfl, rfl, rfl, rfl⟩
  · have hl := h lm rfl
    refine ⟨?_, ?_, ?_, ?_, ?_⟩ <;>
      simp [GetRoutineContextQ, WaitForRoutineQ, IsRoutineDoneQ, GetRoutineStartedAtQ,
            GetRoutineUptimeQ, getQRoutine, hl]

/-- Witness for `query_helpers_soft_fail`: a present manager that does
not track the queried id, and the missing-manager case. -/
theorem query_helpers_soft_fail_witness :
    (∀ lm, (some (QLocalMgr.mk []) : Option QLocalMgr) = some lm →
        mapLookup lm.routines "nope" = none)
    ∧ GetRoutineContextQ (some (QLocalMgr.mk [])) "nope" = CtxVal.background
    ∧ WaitForRoutineQ none "nope" true = false := by
  have hyp : ∀ lm, (some (QLocalMgr.mk []) : Option QLocalMgr) = some lm →
      mapLookup lm.routines "nope" = none := by
    intro lm he
    cases he
    rfl
  have h1 := query_helpers_soft_fail (some (QLocalMgr.mk [])) "nope" true 0 hyp
  have h2 := query_helpers_soft_fail none "nope" true 0 (by intro lm he; cases he)
  exact ⟨hyp, h1.1, h2.2.1⟩

/-! ### Claim C9 — task-ID ordering and uniqueness -/

/-- Claim C9 counterexample: with the little-endian encoding, a strictly
greater nanosecond timestamp does NOT give a lexicographically greater
ID.  At timestamps 1 and 256 (counters 1 and 2), the later ID
("AAEA…") sorts strictly BELOW the earlier one ("AQAA…"). -/
theorem newUUID_order_counterexample :
    (1 : Nat) < 256
    ∧ lexLtChars (NewUUID 1 1) (NewUUID 256 2) = false
    ∧ lexLtChars (NewUUID 256 2) (NewUUID 1 1) = true
    ∧ (NewUUID 1 1).length = 22
    ∧ (NewUUID 256 2).length = 22 := by
  decide

theorem b64_roundtrip : ∀ n < 64, b64Index (b64Char n) = n := by
  decide

theorem decode_encode :
    ∀ (bytes : List Nat), (∀ b ∈ bytes, b < 256) →
      decodeGroups (encodeGroups bytes) = bytes
  | [], _ => rfl
  | [a], h => by
      have ha : a < 256 := h a (by simp)
      simp only [encodeGroups, decodeGroups]
      rw [b64_roundtrip (a / 4) (by omega), b64_roundtrip (a % 4 * 16) (by omega)]
      simp only [List.cons.injEq, and_true]
      omega
  | [a, b], h => by
      have ha : a < 256 := h a (by simp)
      have hb : b < 256 := h b (by simp)
      simp only [encodeGroups, decodeGroups]
      rw [b64_roundtrip (a / 4) (by omega), b64_roundtrip (a % 4 * 16 + b / 16) (by omega),
          b64_roundtrip (b % 16 * 4) (by omega)]
      simp only [List.cons.injEq, and_true]
      constructor <;> omega
  | a :: b :: c :: rest, h => by
      have ha : a < 256 := h a (by simp)
      have hb : b < 256 := h b (by simp)
      have hc : c < 256 := h c (by simp)
      have ih := decode_encode rest (fun x hx => h x (by simp [hx]))
      simp only [encodeGroups, decodeGroups]
      rw [b64_roundtrip (a / 4) (by omega), b64_roundtrip (a % 4 * 16 + b / 16) (by omega),
          b64_roundtrip (b % 16 * 4 + c / 64) (by omega), b64_roundtrip (c % 64) (by omega)]
      simp only [List.cons.injEq]
      exact ⟨by omega, by omega, by omega, ih⟩

theorem leBytes8_lt (n : Nat) : ∀ b ∈ leBytes8 n, b < 256 := by
  intro b hb
  simp only [leBytes8, List.mem_cons, List.not_mem_nil, or_false] at hb
  rcases hb with rfl | rfl | rfl | rfl | rfl | rfl | rfl | rfl <;> omega

theorem fromLeBytes_leBytes8 (n : Nat) (h : n < 18446744073709551616) :
    fromLeBytes (leBytes8 n) = n := by
  simp only [leBytes8, fromLeBytes]
  omega

theorem leBytes8_inj (m n : Nat) (hm : m < 18446744073709551616)
    (hn : n < 18446744073709551616) (h : leBytes8 m = leBytes8 n) : m = n := by
  have hfrom := congrArg fromLeBytes h
  rwa [fromLeBytes_leBytes8 m hm, fromLeBytes_leBytes8 n hn] at hfrom

/-- Claim C9 (amended): task IDs are process-unique — two generator
calls whose (timestamp, counter) pairs differ (in particular any two
calls, since the counter strictly increases) produce distinct 22-char
IDs — but lexicographic ASCII order over this little-endian base64url
encoding does not in general follow timestamp order. -/
theorem newUUID_distinct (t1 c1 t2 c2 : Nat)
    (ht1 : t1 < 18446744073709551616) (hc1 : c1 < 18446744073709551616)
    (ht2 : t2 < 18446744073709551616) (hc2 : c2 < 18446744073709551616)
    (hne : t1 ≠ t2 ∨ c1 ≠ c2) :
    NewUUID t1 c1 ≠ NewUUID t2 c2 := by
  intro he
  unfold NewUUID at he
  have hb1 : ∀ x ∈ leBytes8 t1 ++ leBytes8 c1, x < 256 := by
    intro x hx
    rcases List.mem_append.mp hx with hx | hx
    · exact leBytes8_lt t1 x hx
    · exact leBytes8_lt c1 x hx
  have hb2 : ∀ x ∈ leBytes8 t2 ++ leBytes8 c2, x < 256 := by
    intro x hx
    rcases List.mem_append.mp hx with hx | hx
    · exact leBytes8_lt t2 x hx
    · exact leBytes8_lt c2 x hx
  have hbytes : leBytes8 t1 ++ leBytes8 c1 = leBytes8 t2 ++ leBytes8 c2 := by
    rw [← decode_encode (leBytes8 t1 ++ leBytes8 c1) hb1,
        ← decode_encode (leBytes8 t2 ++ leBytes8 c2) hb2, he]
  have hsplit := List.append_inj hbytes rfl
  rcases hne with h | h
  · exact h (leBytes8_inj t1 t2 ht1 ht2 hsplit.1)
  · exact h (leBytes8_inj c1 c2 hc1 hc2 hsplit.2)

/-- Witness for `newUUID_distinct` at two concrete calls. -/
theorem newUUID_distinct_witness :
    (1 : Nat) < 18446744073709551616 ∧ NewUUID 1 1 ≠ NewUUID 2 2 :=
  ⟨by decide,
   newUUID_distinct 1 1 2 2 (by decide) (by decide) (by decide) (by decide)
     (Or.inl (by decide))⟩

end Orchestrator
